import Mathlib

/-!
Verification of the viewport-activation observer of the dispatch-ride
landing page (src/scripts/animations.js and src/scripts/image-optimizer.js).

The JavaScript modules are embedded shallowly:

* configuration objects become Lean structures whose fields carry dynamic
  `JSVal` values, mirroring the untyped option bags of the source;
* the module-level mutable state of animations.js (the `WeakMap` registry,
  the pooled `globalObserver`, the reduced-motion flag, the Intersection
  Observer registrations and their pending entry queue) becomes an explicit
  `World` record threaded through the operations;
* the Intersection Observer platform itself is modelled after the W3C
  processing model, restricted to a single threshold: each observe call
  creates a registration with previous threshold index -1 and previous
  intersecting flag false; a geometry update queues an entry exactly when
  the threshold index (1 when ratio is at least the threshold, else 0) or
  the intersecting flag changed; queued entries are delivered in order to
  the observer callback, which is `handleIntersection` closed over the
  configuration of the registration that created the observer;
* fallible JavaScript functions (those that `throw`) return `Except String`.

Durations and ratios are rationals; numeric CSS strings are kept as their
numeric value.
-/

deriving instance DecidableEq for Except

namespace Dispatch

/-- A dynamically typed JavaScript value, as far as the validated options
of animations.js distinguish them. `undef` stands for an explicitly
supplied `undefined`, which object spread copies over a default. -/
inductive JSVal where
  | num (q : ℚ)
  | str (s : String)
  | jbool (b : Bool)
  | undef
  deriving DecidableEq, Repr

/-- The option bag accepted by `initScrollAnimations`. A field that is
`none` is absent from the object literal, so the default survives the
spread `{ ...DEFAULT_CONFIG, ...config }`. -/
structure AnimOptions where
  threshold : Option JSVal := none
  rootMargin : Option JSVal := none
  triggerOnce : Option JSVal := none
  animationType : Option JSVal := none
  delay : Option JSVal := none
  duration : Option JSVal := none
  deriving DecidableEq, Repr

/-- A configuration that passed `validateConfig`. -/
structure AnimConfig where
  threshold : ℚ
  rootMargin : String
  triggerOnce : Bool
  animationType : String
  delay : ℚ
  duration : ℚ
  deriving DecidableEq, Repr

/-- `Object.values(AnimationType)` of animations.js. -/
def animationTypeValues : List String :=
  ["fade-in", "slide-up", "slide-left", "slide-right", "scale", "none"]

/-- The merged value of one option field: the supplied value if the key is
present, the default of `DEFAULT_CONFIG` otherwise.  The imported
`ANIMATION_CONFIG` of animations.js resolves to `undefined` (config.js has
only a default export), so every `??` chain in `DEFAULT_CONFIG` yields its
fallback: threshold 0.1, rootMargin "0px", triggerOnce true, animationType
"fade-in", delay 0, duration 300. -/
def mergedVal (o : Option JSVal) (d : JSVal) : JSVal :=
  o.getD d

/-- `validateConfig` of animations.js (lines 69-101): merges the options
over the defaults and checks each field in source order, throwing a
`TypeError` message on the first failure. -/
def validateConfig (opts : AnimOptions) : Except String AnimConfig :=
  match mergedVal opts.threshold (JSVal.num (mkRat 1 10)) with
  | JSVal.num t =>
    if t < 0 ∨ t > 1 then
      Except.error "threshold must be a number between 0 and 1"
    else
      match mergedVal opts.rootMargin (JSVal.str "0px") with
      | JSVal.str rm =>
        match mergedVal opts.triggerOnce (JSVal.jbool true) with
        | JSVal.jbool tro =>
          match mergedVal opts.delay (JSVal.num 0) with
          | JSVal.num dl =>
            if dl < 0 then
              Except.error "delay must be a non-negative number"
            else
              match mergedVal opts.duration (JSVal.num 300) with
              | JSVal.num du =>
                if du < 0 then
                  Except.error "duration must be a non-negative number"
                else
                  match mergedVal opts.animationType (JSVal.str "fade-in") with
                  | JSVal.str ty =>
                    if ty ∈ animationTypeValues then
                      Except.ok ⟨t, rm, tro, ty, dl, du⟩
                    else
                      Except.error "animationType must be one of the supported types"
                  | _ => Except.error "animationType must be one of the supported types"
              | _ => Except.error "duration must be a non-negative number"
          | _ => Except.error "delay must be a non-negative number"
        | _ => Except.error "triggerOnce must be a boolean"
      | _ => Except.error "rootMargin must be a string"
  | _ => Except.error "threshold must be a number between 0 and 1"

/-- The state of one DOM element, as far as animations.js reads or writes
it: its class list, the inline `opacity` and `transform` style
properties, the `--animation-duration` custom property (kept as the
numeric millisecond value), and its `data-animation-*` attributes
(numeric ones kept parsed; `none` is an absent or unparsable attribute). -/
structure ElemState where
  classes : List String
  opacity : Option String
  transform : Option String
  animDurationVar : Option ℚ
  dataAnimationType : Option String
  dataAnimationDelay : Option ℚ
  dataAnimationDuration : Option ℚ
  deriving DecidableEq, Repr

/-- A fresh element, with no classes, styles or data attributes. -/
def ElemState.blank : ElemState :=
  ⟨[], none, none, none, none, none, none⟩

instance : Inhabited ElemState := ⟨ElemState.blank⟩

/-- `classList.add`: appends the class when absent. -/
def addClass (cs : List String) (c : String) : List String :=
  if c ∈ cs then cs else cs ++ [c]

/-- `classList.remove`: removes every occurrence of the class. -/
def removeClass (cs : List String) (c : String) : List String :=
  cs.filter (fun x => x ≠ c)

/-- `element.dataset.x || fallback` for a string-valued data attribute:
an absent attribute or an empty string is falsy. -/
def resolveStr (d : Option String) (fallb : String) : String :=
  match d with
  | some s => if s = "" then fallb else s
  | none => fallb

/-- `parseInt(element.dataset.x, 10) || fallback` for a numeric data
attribute: an absent or unparsable attribute gives NaN, and NaN and 0 are
both falsy. -/
def resolveNum (d : Option ℚ) (fallb : ℚ) : ℚ :=
  match d with
  | some n => if n = 0 then fallb else n
  | none => fallb

/-- One Intersection Observer registration for a target element, after the
W3C processing model: `prevTIdx` is the previous threshold index
(initialised to -1, which forces a notification on the first geometry
update) and `prevIsect` the previous intersecting flag (initialised to
false). -/
structure ObsReg where
  elem : ℕ
  prevTIdx : ℤ
  prevIsect : Bool
  deriving DecidableEq, Repr

/-- An `IntersectionObserver` instance created by `getObserver`: its
callback is `handleIntersection` closed over `cfg`, the validated
configuration of the registration that created it, and it holds one
`ObsReg` per currently observed target. -/
structure Observer where
  cfg : AnimConfig
  regs : List ObsReg
  deriving DecidableEq, Repr

/-- An entry queued by the platform for later delivery to an observer's
callback. -/
structure QueuedEntry where
  obsIdx : ℕ
  elem : ℕ
  ratio : ℚ
  isect : Bool
  deriving DecidableEq, Repr

/-- The whole mutable state touched by animations.js: the environment
flags (`prefersReducedMotion`, Intersection Observer support), the DOM
element states, the observer instances, the pooled `globalObserver`
(index into `observers`), the module-level `observerRegistry` WeakMap
(element to observer index), the platform's queue of undelivered entries,
the log of Effect invocations (one `(element, animationType)` pair per
`applyAnimation` call made by `handleIntersection`), and the pending
`setTimeout` class additions scheduled by a positive delay. -/
structure World where
  prm : Bool
  supported : Bool
  elems : List (ℕ × ElemState)
  observers : List Observer
  globalObs : Option ℕ
  registry : List (ℕ × ℕ)
  queue : List QueuedEntry
  effectLog : List (ℕ × String)
  timers : List (ℕ × List String)
  deriving DecidableEq, Repr

/-- Reads an element's state (a missing element reads as a blank one). -/
def getElemSt (w : World) (e : ℕ) : ElemState :=
  match w.elems.find? (fun p => p.1 == e) with
  | some p => p.2
  | none => ElemState.blank

/-- Writes an element's state.  The representation drops any previous
binding and conses the new one; only `getElemSt` observes `elems`. -/
def setElemSt (w : World) (e : ℕ) (s : ElemState) : World :=
  { w with elems := (e, s) :: w.elems.filter (fun p => p.1 ≠ e) }

/-- Replaces the observer stored at an index. -/
def setObs (w : World) (i : ℕ) (o : Observer) : World :=
  { w with observers := w.observers.set i o }

/-- `observerRegistry.set(element, observer)`: a WeakMap keeps at most one
binding per key, so the old binding is dropped. -/
def registrySet (r : List (ℕ × ℕ)) (e : ℕ) (oi : ℕ) : List (ℕ × ℕ) :=
  (e, oi) :: r.filter (fun p => p.1 ≠ e)

/-- `observerRegistry.delete(element)`. -/
def registryDelete (r : List (ℕ × ℕ)) (e : ℕ) : List (ℕ × ℕ) :=
  r.filter (fun p => p.1 ≠ e)

/-- `observerRegistry.get(element)`. -/
def registryGet (r : List (ℕ × ℕ)) (e : ℕ) : Option ℕ :=
  (r.find? (fun p => p.1 == e)).map (fun p => p.2)

/-- `IntersectionObserver.observe`: observing an already observed target
is a no-op; otherwise a fresh registration is added with previous
threshold index -1 and previous intersecting flag false. -/
def obsObserve (o : Observer) (e : ℕ) : Observer :=
  if o.regs.any (fun r => r.elem == e) then o
  else { o with regs := o.regs ++ [⟨e, -1, false⟩] }

/-- `IntersectionObserver.unobserve`: drops the target's registration. -/
def obsUnobserve (o : Observer) (e : ℕ) : Observer :=
  { o with regs := o.regs.filter (fun r => r.elem ≠ e) }

/-- `applyAnimation` of animations.js (lines 122-147), acting on one
element state.  Under a reduced-motion preference it adds the `visible`
class and forces the final inline styles, synchronously and with no
timer.  Otherwise it records the duration custom property and either adds
the classes now (zero delay) or schedules them (returned as a pending
timer payload). -/
def applyAnimation (prm : Bool) (e : ElemState) (ty : String) (delay duration : ℚ) :
    ElemState × Option (List String) :=
  if prm then
    ({ e with classes := addClass e.classes "visible",
              opacity := some "1",
              transform := some "none" }, none)
  else
    let e1 := { e with animDurationVar := some duration }
    if delay > 0 then
      (e1, some ["visible", "animate-" ++ ty])
    else
      ({ e1 with classes := addClass (addClass e1.classes "visible") ("animate-" ++ ty) },
       none)

/-- `removeAnimation` of animations.js (lines 153-168): removes `visible`
and every `animate-` class except `none`'s, and clears the duration
custom property. -/
def removeAnimation (e : ElemState) : ElemState :=
  let cs1 := removeClass e.classes "visible"
  let cs2 := (animationTypeValues.filter (fun t => t ≠ "none")).foldl
    (fun cs ty => removeClass cs ("animate-" ++ ty)) cs1
  { e with classes := cs2, animDurationVar := none }

/-- The single-threshold index of the W3C update algorithm: the index of
the first entry of `[t]` greater than the ratio, so 1 exactly when the
ratio reached the threshold (the boundary ratio = t counts as crossed). -/
def tIdx (t r : ℚ) : ℤ :=
  if t > r then 0 else 1

/-- A geometry outcome the platform can actually report: the ratio lies in
[0,1] and a non-intersecting target has ratio 0 (an intersecting one may
still have ratio 0 when only its boundary touches the root). -/
def geomOk (ratio : ℚ) (isect : Bool) : Prop :=
  0 ≤ ratio ∧ ratio ≤ 1 ∧ (isect = false → ratio = 0)

/-- One step of the platform's update-intersection-observations algorithm
for one observer and one target: if the target is registered and its
threshold index or intersecting flag changed, an entry is queued and the
registration's previous values updated. -/
def updateGeometry (w : World) (oi : ℕ) (e : ℕ) (ratio : ℚ) (isect : Bool) : World :=
  match w.observers[oi]? with
  | none => w
  | some o =>
    match o.regs.find? (fun r => r.elem == e) with
    | none => w
    | some reg =>
      let ti := tIdx o.cfg.threshold ratio
      if ti ≠ reg.prevTIdx ∨ isect ≠ reg.prevIsect then
        let newRegs := o.regs.map (fun r => if r.elem == e then ⟨e, ti, isect⟩ else r)
        let o' := { o with regs := newRegs }
        { setObs w oi o' with queue := w.queue ++ [⟨oi, e, ratio, isect⟩] }
      else
        w

/-- Processing of one delivered entry by `handleIntersection` of
animations.js (lines 176-198), with the configuration closed over by the
observer's callback: an intersecting entry resolves the per-element data
attributes against that configuration, invokes the Effect
(`applyAnimation`, logged), and under trigger-once unobserves the element
and deletes it from the registry; a non-intersecting entry reverses the
animation unless trigger-once. -/
def handleEntry (w : World) (en : QueuedEntry) : World :=
  match w.observers[en.obsIdx]? with
  | none => w
  | some o =>
    if en.isect then
      let es := getElemSt w en.elem
      let ty := resolveStr es.dataAnimationType o.cfg.animationType
      let dl := resolveNum es.dataAnimationDelay o.cfg.delay
      let du := resolveNum es.dataAnimationDuration o.cfg.duration
      let ap := applyAnimation w.prm es ty dl du
      let w1 := setElemSt w en.elem ap.1
      let w2 := { w1 with
        effectLog := w1.effectLog ++ [(en.elem, ty)],
        timers := match ap.2 with
          | some cs => w1.timers ++ [(en.elem, cs)]
          | none => w1.timers }
      if o.cfg.triggerOnce then
        let w3 := setObs w2 en.obsIdx (obsUnobserve o en.elem)
        { w3 with registry := registryDelete w3.registry en.elem }
      else
        w2
    else
      if o.cfg.triggerOnce then
        w
      else
        setElemSt w en.elem (removeAnimation (getElemSt w en.elem))

/-- The platform's notify task: delivers every queued entry, in order, to
its observer's callback. -/
def deliverAll (w : World) : World :=
  w.queue.foldl handleEntry { w with queue := [] }

/-- The number of Effect invocations an element has received. -/
def countEffect (w : World) (e : ℕ) : ℕ :=
  (w.effectLog.filter (fun p => p.1 == e)).length

/-- `getObserver` of animations.js (lines 205-229): reuses the module's
`globalObserver` when its first threshold and its root margin equal the
requested ones; otherwise creates a fresh observer whose callback closes
over the requested configuration, and stores it as the global observer
only if none exists yet.  Returns the updated world and the index of the
observer to use. -/
def getObserver (w : World) (cfg : AnimConfig) : World × ℕ :=
  match w.globalObs with
  | some gi =>
    match w.observers[gi]? with
    | some gobs =>
      if gobs.cfg.threshold = cfg.threshold ∧ gobs.cfg.rootMargin = cfg.rootMargin then
        (w, gi)
      else
        ({ w with observers := w.observers ++ [⟨cfg, []⟩] }, w.observers.length)
    | none =>
      ({ w with observers := w.observers ++ [⟨cfg, []⟩] }, w.observers.length)
  | none =>
    ({ w with observers := w.observers ++ [⟨cfg, []⟩],
              globalObs := some w.observers.length }, w.observers.length)

/-- An item of an array passed as a selector: a DOM element or anything
else. -/
inductive ArrItem where
  | element (e : ℕ)
  | nonElement
  deriving DecidableEq, Repr

/-- The selector argument of `initScrollAnimations`: a CSS selector string
(carrying the elements `document.querySelectorAll` resolves it to), a
single element, a NodeList, an array, or any other value. -/
inductive SelectorInput where
  | css (found : List ℕ)
  | element (e : ℕ)
  | nodeList (es : List ℕ)
  | arr (items : List ArrItem)
  | other
  deriving DecidableEq, Repr

/-- `getElements` of animations.js (lines 338-360): resolves the four
recognised selector forms and throws a `TypeError` for an array holding a
non-element or for an unrecognised value. -/
def getElements : SelectorInput → Except String (List ℕ)
  | SelectorInput.css ms => Except.ok ms
  | SelectorInput.element e => Except.ok [e]
  | SelectorInput.nodeList es => Except.ok es
  | SelectorInput.arr items =>
    if items.all (fun it => match it with | ArrItem.element _ => true | _ => false) then
      Except.ok (items.filterMap
        (fun it => match it with | ArrItem.element e => some e | _ => none))
    else
      Except.error "Array must contain only Element instances"
  | SelectorInput.other =>
    Except.error "Selector must be a string, Element, NodeList, or Element array"

/-- The control object returned by `initScrollAnimations`: either the
no-op handle `{ cleanup: () => {} }` or the real one closed over the
registered elements. -/
inductive Handle where
  | noop
  | active (elems : List ℕ)
  deriving DecidableEq, Repr

/-- One element's share of the unsupported-platform fallback (lines
269-272): add the `visible` class and set inline opacity 1. -/
def fallbackStep (acc : World) (e : ℕ) : World :=
  let st := getElemSt acc e
  setElemSt acc e { st with classes := addClass st.classes "visible",
                            opacity := some "1" }

/-- The fallback of the unsupported-platform branch (lines 267-272): every
resolved element receives the `visible` class and inline opacity 1. -/
def fallbackMark (w : World) (es : List ℕ) : World :=
  es.foldl fallbackStep w

/-- One element's registration work in `initScrollAnimations` (lines
298-307): store the observer in the registry, add the `animate-element`
class, and start observing. -/
def registerStep (oi : ℕ) (acc : World) (e : ℕ) : World :=
  let acc1 := { acc with registry := registrySet acc.registry e oi }
  let st := getElemSt acc1 e
  let acc2 := setElemSt acc1 e { st with classes := addClass st.classes "animate-element" }
  match acc2.observers[oi]? with
  | some o => setObs acc2 oi (obsObserve o e)
  | none => acc2

/-- The per-element registration loop of `initScrollAnimations`. -/
def registerElems (w : World) (oi : ℕ) (es : List ℕ) : World :=
  es.foldl (registerStep oi) w

/-- `initScrollAnimations` of animations.js (lines 262-330).  Without
Intersection Observer support it resolves the selector (which can still
throw), marks everything visible and returns the no-op handle.  Otherwise
it validates the configuration (rethrowing validation errors), resolves
the selector (uncaught, so selector errors also propagate), returns the
no-op handle on an empty element set, and otherwise registers every
element with the pooled or fresh observer. -/
def initScrollAnimations (w : World) (selector : SelectorInput) (opts : AnimOptions) :
    Except String (World × Handle) :=
  if w.supported = false then
    match getElements selector with
    | Except.error msg => Except.error msg
    | Except.ok es => Except.ok (fallbackMark w es, Handle.noop)
  else
    match validateConfig opts with
    | Except.error msg => Except.error msg
    | Except.ok cfg =>
      match getElements selector with
      | Except.error msg => Except.error msg
      | Except.ok es =>
        if es.length = 0 then
          Except.ok (w, Handle.noop)
        else
          let wo := getObserver w cfg
          Except.ok (registerElems wo.1 wo.2 es, Handle.active es)

/-- The element-state part of one `cleanup` iteration: reverse the
animation and remove the `animate-element` class. -/
def cleanupElem (st : ElemState) : ElemState :=
  { removeAnimation st with
    classes := removeClass (removeAnimation st).classes "animate-element" }

/-- One element's share of the handle's `cleanup` (lines 317-325):
unobserve it from the observer the registry currently maps it to (if any)
and drop the registry binding, then reverse the animation. -/
def cleanupStep (acc : World) (e : ℕ) : World :=
  let acc1 :=
    match registryGet acc.registry e with
    | some oi =>
      let accU :=
        match acc.observers[oi]? with
        | some o => setObs acc oi (obsUnobserve o e)
        | none => acc
      { accU with registry := registryDelete accU.registry e }
    | none => acc
  setElemSt acc1 e (cleanupElem (getElemSt acc1 e))

/-- The `cleanup` closure of the returned handle (lines 316-328). -/
def cleanup (w : World) (es : List ℕ) : World :=
  es.foldl cleanupStep w

/-- `dispose` on a handle: the no-op handle does nothing, the active one
runs `cleanup`. -/
def dispose (w : World) : Handle → World
  | Handle.noop => w
  | Handle.active es => cleanup w es

/-- A platform event: a geometry change observed by one observer for one
target, or the delivery of all queued entries. -/
inductive PEvent where
  | geom (oi : ℕ) (e : ℕ) (ratio : ℚ) (isect : Bool)
  | deliver
  deriving DecidableEq, Repr

/-- One platform step. -/
def stepEvent (w : World) : PEvent → World
  | PEvent.geom oi e r i => updateGeometry w oi e r i
  | PEvent.deliver => deliverAll w

/-- Runs a sequence of platform events. -/
def runEvents (w : World) : List PEvent → World
  | [] => w
  | ev :: evs => runEvents (stepEvent w ev) evs

/-- The user configuration bag of image-optimizer.js's `initLazyLoading`;
numeric fields carry dynamic values, class names are already strings in
the source's uses. -/
structure ImgOptions where
  rootMargin : Option JSVal := none
  threshold : Option JSVal := none
  loadingClass : Option String := none
  loadedClass : Option String := none
  errorClass : Option String := none
  deriving DecidableEq, Repr

/-- The configuration `initLazyLoading` actually proceeds with. -/
structure ImgConfigV where
  rootMargin : ℚ
  threshold : ℚ
  loadingClass : String
  loadedClass : String
  errorClass : String
  deriving DecidableEq, Repr

/-- The validation step of `initLazyLoading` (image-optimizer.js lines
342-355): it never throws — a non-number or negative `rootMargin` and a
non-number or out-of-range `threshold` are silently replaced by the
defaults (50 and 0.01) after logging a warning; registration proceeds. -/
def lazyValidate (opts : ImgOptions) : ImgConfigV :=
  let rm := match opts.rootMargin.getD (JSVal.num 50) with
    | JSVal.num q => if q < 0 then 50 else q
    | _ => 50
  let th := match opts.threshold.getD (JSVal.num (mkRat 1 100)) with
    | JSVal.num q => if q < 0 ∨ q > 1 then mkRat 1 100 else q
    | _ => mkRat 1 100
  { rootMargin := rm, threshold := th,
    loadingClass := opts.loadingClass.getD "img-loading",
    loadedClass := opts.loadedClass.getD "img-loaded",
    errorClass := opts.errorClass.getD "img-error" }

/-- The selector argument of `initLazyLoading`: a CSS selector string,
a NodeList or array, or any other value. -/
inductive ImgSelector where
  | css (found : List ℕ)
  | nodeList (es : List ℕ)
  | arr (es : List ℕ)
  | other
  deriving DecidableEq, Repr

/-- What `initLazyLoading` does with its input, distinguishing the four
exits of the source. -/
inductive LazyOutcome where
  | noopInvalidSelector
  | noopNoElements
  | fallbackLoadedAll (cfg : ImgConfigV) (es : List ℕ)
  | observing (cfg : ImgConfigV) (es : List ℕ)
  deriving DecidableEq, Repr

/-- `initLazyLoading` of image-optimizer.js (lines 342-433), up to the
choice of exit: the configuration is validated (never aborting), an
invalid selector degrades to a no-op cleanup after an error log, an empty
element set to a no-op cleanup after an info log; without Intersection
Observer support every image is loaded immediately, otherwise all images
are observed.  No branch throws. -/
def initLazyLoading (supported : Bool) (sel : ImgSelector) (opts : ImgOptions) :
    LazyOutcome :=
  let cfg := lazyValidate opts
  match sel with
  | ImgSelector.other => LazyOutcome.noopInvalidSelector
  | ImgSelector.css es =>
    if es.length = 0 then LazyOutcome.noopNoElements
    else if supported = false then LazyOutcome.fallbackLoadedAll cfg es
    else LazyOutcome.observing cfg es
  | ImgSelector.nodeList es =>
    if es.length = 0 then LazyOutcome.noopNoElements
    else if supported = false then LazyOutcome.fallbackLoadedAll cfg es
    else LazyOutcome.observing cfg es
  | ImgSelector.arr es =>
    if es.length = 0 then LazyOutcome.noopNoElements
    else if supported = false then LazyOutcome.fallbackLoadedAll cfg es
    else LazyOutcome.observing cfg es

/-- The state of one image element, as far as `loadImage` reads or writes
it.  `inPicture` is whether `img.closest(picture)` finds a parent
picture; `pictureBest` is what `selectBestSource` would resolve for it
(format-support dependent, so a parameter of the state). -/
structure ImgState where
  classes : List String
  src : Option String
  srcset : Option String
  dataSrc : Option String
  dataSrcset : Option String
  inPicture : Bool
  pictureBest : Option String
  deriving DecidableEq, Repr

/-- `loadImage` of image-optimizer.js (lines 252-334).  `netOk` is whether
the temporary `Image` load succeeds.  Returns the new image state, the
number of network loads initiated, and whether the function threw (its
rejected promise).  An image already carrying the loaded class returns
unchanged before any other step. -/
def loadImage (img : ImgState) (cfg : ImgConfigV) (netOk : Bool) :
    ImgState × ℕ × Bool :=
  if cfg.loadedClass ∈ img.classes then
    (img, 0, false)
  else
    let i1 := { img with
      classes := removeClass (addClass img.classes cfg.loadingClass) cfg.errorClass }
    let fromPicture := if img.inPicture then img.pictureBest else none
    let srcToLoad := fromPicture.orElse (fun _ => img.dataSrc.orElse (fun _ => img.src))
    match srcToLoad with
    | none =>
      ({ i1 with classes := addClass (removeClass i1.classes cfg.loadingClass) cfg.errorClass },
       0, true)
    | some s =>
      if netOk then
        let i2 := match i1.dataSrcset with
          | some ds => { i1 with srcset := some ds, dataSrcset := none }
          | none => i1
        let i3 := { i2 with src := some s, dataSrc := none }
        ({ i3 with classes := addClass (removeClass i3.classes cfg.loadingClass) cfg.loadedClass },
         1, false)
      else
        ({ i1 with classes := addClass (removeClass i1.classes cfg.loadingClass) cfg.errorClass },
         1, true)

/-!  Supporting lemmas.  -/

theorem mem_addClass_self (cs : List String) (c : String) : c ∈ addClass cs c := by
  unfold addClass
  split
  · assumption
  · exact List.mem_append_right _ (List.mem_singleton.mpr rfl)

theorem mem_addClass_of_mem {cs : List String} {x : String} (c : String) (h : x ∈ cs) :
    x ∈ addClass cs c := by
  unfold addClass
  split
  · exact h
  · exact List.mem_append_left _ h

theorem removeClass_removeClass (cs : List String) (a b : String) :
    removeClass (removeClass cs a) b = removeClass (removeClass cs b) a := by
  unfold removeClass
  rw [List.filter_filter, List.filter_filter]
  exact List.filter_congr (fun x _ => by rw [Bool.and_comm])

theorem removeClass_idem (cs : List String) (a : String) :
    removeClass (removeClass cs a) a = removeClass cs a := by
  unfold removeClass
  rw [List.filter_filter]
  exact List.filter_congr (fun x _ => by rw [Bool.and_self])

theorem removeClass_foldl (cs : List String) (a : String) (C : List String) :
    removeClass (C.foldl removeClass cs) a = C.foldl removeClass (removeClass cs a) := by
  induction C generalizing cs with
  | nil => rfl
  | cons c C ih => simp only [List.foldl_cons, ih, removeClass_removeClass]

theorem foldl_removeClass_idem (C : List String) (cs : List String) :
    C.foldl removeClass (C.foldl removeClass cs) = C.foldl removeClass cs := by
  induction C generalizing cs with
  | nil => rfl
  | cons c C ih =>
    simp only [List.foldl_cons]
    rw [removeClass_foldl, removeClass_idem, ih]

theorem getElemSt_setElemSt_self (w : World) (e : ℕ) (s : ElemState) :
    getElemSt (setElemSt w e s) e = s := by
  simp [getElemSt, setElemSt, List.find?_cons_of_pos]

theorem find?_filter_key_ne {β : Type} (l : List (ℕ × β)) (e x : ℕ) (h : x ≠ e) :
    (l.filter (fun p => p.1 ≠ e)).find? (fun p => p.1 == x) =
      l.find? (fun p => p.1 == x) := by
  induction l with
  | nil => rfl
  | cons p l ih =>
    rw [List.filter_cons]
    by_cases hpe : p.1 = e
    · rw [if_neg (by simp [hpe])]
      have h2 : (p.1 == x) = false := by
        simp
        intro hx
        exact absurd (hpe ▸ hx : e = x) (Ne.symm h)
      simp only [List.find?_cons, h2]
      exact ih
    · rw [if_pos (by simp [hpe])]
      by_cases hpx : p.1 = x
      · have h2 : (p.1 == x) = true := by simp [hpx]
        simp only [List.find?_cons, h2]
      · have h2 : (p.1 == x) = false := by simp [hpx]
        simp only [List.find?_cons, h2]
        exact ih

theorem getElemSt_setElemSt_ne (w : World) (e x : ℕ) (s : ElemState) (h : x ≠ e) :
    getElemSt (setElemSt w e s) x = getElemSt w x := by
  unfold getElemSt setElemSt
  have h2 : (((e, s) : ℕ × ElemState).1 == x) = false := by
    simp
    exact fun hex => h hex.symm
  simp only [List.find?_cons, h2]
  rw [find?_filter_key_ne _ _ _ h]

theorem registryGet_set_ne (r : List (ℕ × ℕ)) (e x oi : ℕ) (h : x ≠ e) :
    registryGet (registrySet r e oi) x = registryGet r x := by
  unfold registryGet registrySet
  have h2 : (((e, oi) : ℕ × ℕ).1 == x) = false := by
    simp
    exact fun hex => h hex.symm
  simp only [List.find?_cons, h2]
  rw [find?_filter_key_ne _ _ _ h]

theorem registryGet_delete_self (r : List (ℕ × ℕ)) (e : ℕ) :
    registryGet (registryDelete r e) e = none := by
  unfold registryGet registryDelete
  rw [Option.map_eq_none', List.find?_eq_none]
  intro p hp
  have := List.of_mem_filter hp
  simp at this ⊢
  exact this

theorem registryGet_delete_of_none (r : List (ℕ × ℕ)) (e x : ℕ)
    (h : registryGet r x = none) : registryGet (registryDelete r e) x = none := by
  unfold registryGet registryDelete
  unfold registryGet at h
  rw [Option.map_eq_none'] at h ⊢
  rw [List.find?_eq_none] at h ⊢
  intro p hp
  exact h p (List.mem_of_mem_filter hp)

/-- Element `e` is watched by nothing: no observer holds a registration
for it and no queued entry targets it. -/
def noWatch (w : World) (e : ℕ) : Prop :=
  (∀ o ∈ w.observers, ∀ r ∈ o.regs, r.elem ≠ e) ∧ (∀ en ∈ w.queue, en.elem ≠ e)

theorem handleEntry_queue (w : World) (en : QueuedEntry) :
    (handleEntry w en).queue = w.queue := by
  unfold handleEntry
  cases hobs : w.observers[en.obsIdx]? with
  | none => rfl
  | some o =>
    by_cases hi : en.isect = true
    · by_cases ht : o.cfg.triggerOnce = true
      · simp [hi, ht, setElemSt, setObs]
      · simp [hi, ht, setElemSt]
    · by_cases ht : o.cfg.triggerOnce = true
      · simp [hi, ht]
      · simp [hi, ht, setElemSt]

theorem handleEntry_obs_pres (w : World) (en : QueuedEntry) (e : ℕ)
    (h : ∀ o ∈ w.observers, ∀ r ∈ o.regs, r.elem ≠ e) :
    ∀ o ∈ (handleEntry w en).observers, ∀ r ∈ o.regs, r.elem ≠ e := by
  unfold handleEntry
  cases hobs : w.observers[en.obsIdx]? with
  | none => exact h
  | some o =>
    have ho : o ∈ w.observers := List.getElem?_mem hobs
    by_cases hi : en.isect = true
    · by_cases ht : o.cfg.triggerOnce = true
      · simp only [hi, ht, if_true, setElemSt, setObs]
        intro o1 ho1 r hr
        rcases List.mem_or_eq_of_mem_set ho1 with hmem | heq
        · exact h o1 hmem r hr
        · subst heq
          exact h o ho r (List.mem_of_mem_filter hr)
      · simp only [hi, ht, if_true, if_false, setElemSt]
        exact h
    · by_cases ht : o.cfg.triggerOnce = true
      · simp only [hi, ht, if_true, if_false]
        exact h
      · simp only [hi, ht, if_false, setElemSt]
        exact h

theorem handleEntry_countEffect_ne (w : World) (en : QueuedEntry) (e : ℕ)
    (hne : en.elem ≠ e) : countEffect (handleEntry w en) e = countEffect w e := by
  unfold handleEntry countEffect
  cases hobs : w.observers[en.obsIdx]? with
  | none => rfl
  | some o =>
    have hpair : ∀ ty : String, (fun p : ℕ × String => p.1 == e) (en.elem, ty) = false := by
      intro ty
      simp
      exact hne
    by_cases hi : en.isect = true
    · by_cases ht : o.cfg.triggerOnce = true
      · simp [hi, ht, setElemSt, setObs, List.filter_append, hpair, hne]
      · simp [hi, ht, setElemSt, List.filter_append, hpair, hne]
    · by_cases ht : o.cfg.triggerOnce = true
      · simp [hi, ht]
      · simp [hi, ht, setElemSt]

theorem updateGeometry_effectLog (w : World) (oi e : ℕ) (r : ℚ) (i : Bool) :
    (updateGeometry w oi e r i).effectLog = w.effectLog := by
  unfold updateGeometry
  cases hobs : w.observers[oi]? with
  | none => rfl
  | some o =>
    cases hreg : o.regs.find? (fun rg => rg.elem == e) with
    | none => simp only [hreg]
    | some reg =>
      simp only [hreg]
      by_cases hch : tIdx o.cfg.threshold r ≠ reg.prevTIdx ∨ i ≠ reg.prevIsect
      · simp [hch, setObs]
      · simp [hch]

theorem updateGeometry_noWatch (w : World) (oi x : ℕ) (rt : ℚ) (i : Bool) (e : ℕ)
    (h : noWatch w e) :
    noWatch (updateGeometry w oi x rt i) e ∧
      countEffect (updateGeometry w oi x rt i) e = countEffect w e := by
  constructor
  · unfold updateGeometry
    cases hobs : w.observers[oi]? with
    | none => exact h
    | some o =>
      have ho : o ∈ w.observers := List.getElem?_mem hobs
      cases hreg : o.regs.find? (fun rg => rg.elem == x) with
      | none =>
        simp only [hreg]
        exact h
      | some reg =>
        simp only [hreg]
        have hrm : reg ∈ o.regs := List.mem_of_find?_eq_some hreg
        have hxe : x ≠ e := by
          have hfind := List.find?_some hreg
          have hrx : reg.elem = x := by simpa using hfind
          intro hcontra
          exact h.1 o ho reg hrm (hrx.trans hcontra)
        by_cases hch : tIdx o.cfg.threshold rt ≠ reg.prevTIdx ∨ i ≠ reg.prevIsect
        · simp only [hch, if_true, setObs]
          constructor
          · intro o1 ho1 rg hrg
            rcases List.mem_or_eq_of_mem_set ho1 with hmem | heq
            · exact h.1 o1 hmem rg hrg
            · subst heq
              simp only [List.mem_map] at hrg
              rcases hrg with ⟨rg0, hrg0, hrg0eq⟩
              by_cases hb : (rg0.elem == x) = true
              · rw [if_pos hb] at hrg0eq
                rw [← hrg0eq]
                exact hxe
              · rw [if_neg hb] at hrg0eq
                rw [← hrg0eq]
                exact h.1 o ho rg0 hrg0
          · intro en hen
            rcases List.mem_append.mp hen with hold | hnew
            · exact h.2 en hold
            · rw [List.mem_singleton.mp hnew]
              exact hxe
        · simp only [hch, if_false]
          exact h
  · rw [show countEffect (updateGeometry w oi x rt i) e =
          ((updateGeometry w oi x rt i).effectLog.filter (fun p => p.1 == e)).length from rfl,
        updateGeometry_effectLog]
    rfl

theorem foldl_handleEntry_pres (q : List QueuedEntry) (w : World) (e : ℕ)
    (hobs : ∀ o ∈ w.observers, ∀ r ∈ o.regs, r.elem ≠ e)
    (hq : ∀ en ∈ q, en.elem ≠ e) :
    countEffect (q.foldl handleEntry w) e = countEffect w e ∧
      (∀ o ∈ (q.foldl handleEntry w).observers, ∀ r ∈ o.regs, r.elem ≠ e) ∧
      (q.foldl handleEntry w).queue = w.queue := by
  induction q generalizing w with
  | nil => exact ⟨rfl, hobs, rfl⟩
  | cons en q ih =>
    have hen : en.elem ≠ e := hq en (List.mem_cons_self en q)
    have hq' : ∀ en' ∈ q, en'.elem ≠ e := fun en' h' => hq en' (List.mem_cons_of_mem _ h')
    have step := ih (handleEntry w en) (handleEntry_obs_pres w en e hobs) hq'
    refine ⟨?_, step.2.1, ?_⟩
    · rw [List.foldl_cons, step.1, handleEntry_countEffect_ne w en e hen]
    · rw [List.foldl_cons, step.2.2, handleEntry_queue]

theorem deliverAll_noWatch (w : World) (e : ℕ) (h : noWatch w e) :
    noWatch (deliverAll w) e ∧ countEffect (deliverAll w) e = countEffect w e := by
  unfold deliverAll
  have base : ∀ o ∈ ({ w with queue := [] } : World).observers, ∀ r ∈ o.regs, r.elem ≠ e := h.1
  have main := foldl_handleEntry_pres w.queue { w with queue := [] } e base h.2
  refine ⟨⟨main.2.1, ?_⟩, main.1⟩
  rw [main.2.2]
  intro en hen
  exact absurd hen (List.not_mem_nil en)

theorem runEvents_noWatch (evs : List PEvent) (w : World) (e : ℕ) (h : noWatch w e) :
    noWatch (runEvents w evs) e ∧ countEffect (runEvents w evs) e = countEffect w e := by
  induction evs generalizing w with
  | nil => exact ⟨h, rfl⟩
  | cons ev evs ih =>
    cases ev with
    | geom oi x rt i =>
      have step := updateGeometry_noWatch w oi x rt i e h
      have rest := ih (updateGeometry w oi x rt i) step.1
      exact ⟨rest.1, rest.2.trans step.2⟩
    | deliver =>
      have step := deliverAll_noWatch w e h
      have rest := ih (deliverAll w) step.1
      exact ⟨rest.1, rest.2.trans step.2⟩

theorem handleEntry_unobserves (w : World) (en : QueuedEntry) (o : Observer)
    (hobs : w.observers[en.obsIdx]? = some o) (hi : en.isect = true)
    (ht : o.cfg.triggerOnce = true) :
    (handleEntry w en).observers[en.obsIdx]? = some (obsUnobserve o en.elem) ∧
      (∀ r ∈ (obsUnobserve o en.elem).regs, r.elem ≠ en.elem) ∧
      registryGet (handleEntry w en).registry en.elem = none := by
  have hlt : en.obsIdx < w.observers.length := by
    rcases List.getElem?_eq_some.mp hobs with ⟨hl, _⟩
    exact hl
  refine ⟨?_, ?_, ?_⟩
  · simp only [handleEntry, hobs, hi, ht, if_true, setObs, setElemSt]
    exact List.getElem?_set_self hlt
  · intro r hr
    have := List.of_mem_filter hr
    simpa using this
  · simp only [handleEntry, hobs, hi, ht, if_true, setObs, setElemSt]
    exact registryGet_delete_self _ _

/-!  Concrete scenario worlds shared by the claim theorems.  -/

/-- A fresh page environment: reduced-motion and support flags as given,
the listed elements present and untouched, no observers, no registry
bindings, nothing queued. -/
def initialWorld (prm supported : Bool) (elemIds : List ℕ) : World :=
  ⟨prm, supported, elemIds.map (fun e => (e, ElemState.blank)), [], none, [], [], [], []⟩

/-- The world after a registration call, keeping the old world when the
call threw. -/
def afterRegister (w : World) (sel : SelectorInput) (opts : AnimOptions) : World :=
  match initScrollAnimations w sel opts with
  | Except.ok p => p.1
  | Except.error _ => w

/-- Whether a registration call returned normally. -/
def regOk (r : Except String (World × Handle)) : Bool :=
  match r with
  | Except.ok _ => true
  | Except.error _ => false

/-- One element registered through `initScrollAnimations` with the default
options (threshold 0.1, trigger-once true, fade-in). -/
def regOneDefault : World :=
  afterRegister (initialWorld false true [0]) (SelectorInput.css [0]) {}

/-!  C1 — trigger-once.  -/

/-- C1, counterexample.  Element 0 is registered with the default options
(trigger-once true; the second conjunct pins that down).  The element
enters, leaves and re-enters the viewport while the platform is withholding
delivery, so all three crossings sit in one delivered batch — the array
handed to `handleIntersection`.  Processing the batch invokes the Effect
twice for the element: the first intersecting entry fires and unobserves
it, but the third entry is already in the batch and
`entry.isIntersecting` fires the Effect again.  The claim's "the Effect is
invoked exactly once for that element in total" is therefore false. -/
theorem c1_trigger_once_counterexample :
    regOk (initScrollAnimations (initialWorld false true [0]) (SelectorInput.css [0]) {}) =
      true ∧
    (regOneDefault.observers[0]?).map (fun o => o.cfg.triggerOnce) = some true ∧
    countEffect (runEvents regOneDefault
      [PEvent.geom 0 0 1 true, PEvent.geom 0 0 0 false, PEvent.geom 0 0 1 true,
       PEvent.deliver]) 0 = 2 := by
  decide

/-- C1 (amended): with trigger-once, processing an activation entry
immediately unobserves the element (its registration is removed from the
delivering observer and its registry binding dropped), and once no
observer watches an element and no entry for it is queued, no sequence of
geometry events and deliveries ever invokes the Effect for it again; in
particular, when each viewport crossing is delivered before the next one
occurs, entering, leaving and re-entering fires the Effect exactly once.
The Effect can exceed one invocation only when several crossings of the
same element are queued into one delivered batch. -/
theorem c1_trigger_once_amended :
    (∀ (w : World) (e : ℕ) (evs : List PEvent), noWatch w e →
        countEffect (runEvents w evs) e = countEffect w e) ∧
    (∀ (w : World) (en : QueuedEntry) (o : Observer),
        w.observers[en.obsIdx]? = some o → en.isect = true → o.cfg.triggerOnce = true →
        (handleEntry w en).observers[en.obsIdx]? = some (obsUnobserve o en.elem) ∧
          (∀ r ∈ (obsUnobserve o en.elem).regs, r.elem ≠ en.elem) ∧
          registryGet (handleEntry w en).registry en.elem = none) ∧
    countEffect (runEvents regOneDefault
      [PEvent.geom 0 0 1 true, PEvent.deliver, PEvent.geom 0 0 0 false, PEvent.deliver,
       PEvent.geom 0 0 1 true, PEvent.deliver]) 0 = 1 :=
  ⟨fun w e evs h => (runEvents_noWatch evs w e h).2,
   fun w en o hobs hi ht => handleEntry_unobserves w en o hobs hi ht,
   by decide⟩

/-- C1, witness: the amended theorem applied at a concrete input — an
unwatched element receives no Effect from a delivery, and a concrete
activation entry unobserves its element. -/
theorem c1_trigger_once_amended_witness :
    countEffect (runEvents (initialWorld false true [0]) [PEvent.deliver]) 0 =
      countEffect (initialWorld false true [0]) 0 ∧
    registryGet
      (handleEntry regOneDefault ⟨0, 0, 1, true⟩).registry 0 = none :=
  ⟨(c1_trigger_once_amended.1) (initialWorld false true [0]) 0 [PEvent.deliver]
      ⟨fun o ho => absurd ho (List.not_mem_nil o),
       fun en hen => absurd hen (List.not_mem_nil en)⟩,
   ((c1_trigger_once_amended.2.1) regOneDefault ⟨0, 0, 1, true⟩
      ⟨⟨mkRat 1 10, "0px", true, "fade-in", 0, 300⟩, [⟨0, -1, false⟩]⟩
      (by decide) rfl rfl).2.2⟩

/-!  C2 — threshold contract.  -/

/-- One element registered with threshold 0.5 and otherwise default
options. -/
def regOneHalf : World :=
  afterRegister (initialWorld false true [0]) (SelectorInput.css [0])
    { threshold := some (JSVal.num (mkRat 1 2)) }

/-- C2, counterexample.  Element 0 is registered with threshold 0.5.  Its
first reported geometry is a platform-valid partially-visible state:
ratio 0.3, intersecting.  The initial observation always notifies (the
registration's previous threshold index is -1), and `handleIntersection`
fires on `entry.isIntersecting`, not on `ratio ≥ threshold`, so the Effect
fires although 0.3 < 0.5 — refuting the claim's "only if" direction. -/
theorem c2_threshold_counterexample :
    regOk (initScrollAnimations (initialWorld false true [0]) (SelectorInput.css [0])
      { threshold := some (JSVal.num (mkRat 1 2)) }) = true ∧
    (regOneHalf.observers[0]?).map (fun o => o.cfg.threshold) = some (mkRat 1 2) ∧
    geomOk (mkRat 3 10) true ∧
    mkRat 3 10 < mkRat 1 2 ∧
    countEffect (runEvents regOneHalf [PEvent.geom 0 0 (mkRat 3 10) true, PEvent.deliver])
      0 = 1 := by
  refine ⟨by decide, by decide, ⟨by decide, by decide, ?_⟩, by decide, by decide⟩
  intro h
  exact absurd h (by decide)

/-- C2 (amended): the Effect fires on a delivered entry exactly when that
entry's `isIntersecting` flag is set — the geometric intersection test,
not the ratio-versus-threshold test.  The threshold only governs entry
generation: the single-threshold index is 1 precisely when ratio ≥ t
(so the boundary ratio = t counts as satisfied), and a geometry update
that reaches the threshold while intersecting is guaranteed to queue an
(intersecting, hence Effect-firing) entry whenever the element was not
already at or above the threshold.  But delivered entries whose ratio is
below t — the initial observation of a partially visible element, or a
downward crossing that leaves the element still intersecting — fire the
Effect as well. -/
theorem c2_threshold_amended :
    (∀ (w : World) (en : QueuedEntry) (o : Observer),
        w.observers[en.obsIdx]? = some o →
        ((handleEntry w en).effectLog.length = w.effectLog.length + 1 ↔ en.isect = true)) ∧
    (∀ t r : ℚ, tIdx t r = 1 ↔ t ≤ r) ∧
    (∀ (w : World) (oi e : ℕ) (ratio : ℚ) (o : Observer) (reg : ObsReg),
        w.observers[oi]? = some o →
        o.regs.find? (fun rg => rg.elem == e) = some reg →
        reg.prevTIdx ≠ 1 → o.cfg.threshold ≤ ratio →
        (updateGeometry w oi e ratio true).queue = w.queue ++ [⟨oi, e, ratio, true⟩]) := by
  refine ⟨?_, ?_, ?_⟩
  · intro w en o hobs
    unfold handleEntry
    simp only [hobs]
    by_cases hi : en.isect = true
    · by_cases ht : o.cfg.triggerOnce = true
      · simp [hi, ht, setElemSt, setObs]
      · simp [hi, ht, setElemSt]
    · by_cases ht : o.cfg.triggerOnce = true
      · simp [hi, ht]
      · simp [hi, ht, setElemSt]
  · intro t r
    unfold tIdx
    by_cases hlt : t > r
    · rw [if_pos hlt]
      simp
      exact hlt
    · rw [if_neg hlt]
      simp
      exact le_of_not_lt hlt
  · intro w oi e ratio o reg hobs hreg hprev hle
    unfold updateGeometry
    simp only [hobs, hreg]
    have hti : tIdx o.cfg.threshold ratio = 1 := by
      unfold tIdx
      rw [if_neg (not_lt.mpr hle)]
    rw [if_pos (Or.inl (by rw [hti]; exact fun hc => hprev hc.symm))]

/-- C2, witness: the amended theorem at concrete inputs — a delivered
intersecting entry extends the Effect log by one, the boundary ratio = t
counts as crossed, and a concrete at-threshold update queues an entry. -/
theorem c2_threshold_amended_witness :
    ((handleEntry regOneHalf ⟨0, 0, mkRat 1 2, true⟩).effectLog.length =
        regOneHalf.effectLog.length + 1 ↔ (true : Bool) = true) ∧
    (tIdx (mkRat 1 2) (mkRat 1 2) = 1 ↔ mkRat 1 2 ≤ mkRat 1 2) ∧
    (updateGeometry regOneHalf 0 0 (mkRat 1 2) true).queue =
      regOneHalf.queue ++ [⟨0, 0, mkRat 1 2, true⟩] :=
  ⟨(c2_threshold_amended.1) regOneHalf ⟨0, 0, mkRat 1 2, true⟩
      ⟨⟨mkRat 1 2, "0px", true, "fade-in", 0, 300⟩, [⟨0, -1, false⟩]⟩ (by decide),
   (c2_threshold_amended.2.1) (mkRat 1 2) (mkRat 1 2),
   (c2_threshold_amended.2.2) regOneHalf 0 0 (mkRat 1 2)
      ⟨⟨mkRat 1 2, "0px", true, "fade-in", 0, 300⟩, [⟨0, -1, false⟩]⟩ ⟨0, -1, false⟩
      (by decide) (by decide) (by decide) (by decide)⟩

/-!  C3 — reduced motion.  -/

/-- Reading element state only depends on the `elems` field. -/
theorem getElemSt_eq_of_elems (w w' : World) (h : w.elems = w'.elems) (x : ℕ) :
    getElemSt w x = getElemSt w' x := by
  unfold getElemSt
  rw [h]

/-- One element registered with default options while the platform
prefers reduced motion. -/
def regOneReduced : World :=
  afterRegister (initialWorld true true [0]) (SelectorInput.css [0]) {}

/-- C3, counterexample.  With the reduced-motion preference active,
`initScrollAnimations` succeeds, but directly after the call the element
does not carry the final activated state — no `visible` class, no forced
opacity — and no Effect invocation or timer exists: the final state was
not applied synchronously during registration, contradicting the claim.
(The code checks the preference only inside `applyAnimation`, which runs
at intersection time.) -/
theorem c3_reduced_motion_counterexample :
    regOk (initScrollAnimations (initialWorld true true [0]) (SelectorInput.css [0]) {}) =
      true ∧
    (initialWorld true true [0]).prm = true ∧
    "visible" ∉ (getElemSt regOneReduced 0).classes ∧
    (getElemSt regOneReduced 0).opacity = none ∧
    regOneReduced.effectLog = [] ∧
    regOneReduced.timers = [] := by
  decide

/-- C3 (amended): under a reduced-motion preference the final activated
visual state (`visible` class, opacity 1, transform none) is applied
synchronously at activation time — when an intersecting entry is
delivered — with zero delay and no scheduled timer, bypassing the
animation classes and the transition; registration itself only starts
observing and applies nothing. -/
theorem c3_reduced_motion_amended :
    ∀ (w : World) (en : QueuedEntry) (o : Observer),
      w.observers[en.obsIdx]? = some o → en.isect = true → w.prm = true →
      "visible" ∈ (getElemSt (handleEntry w en) en.elem).classes ∧
      (getElemSt (handleEntry w en) en.elem).opacity = some "1" ∧
      (getElemSt (handleEntry w en) en.elem).transform = some "none" ∧
      (handleEntry w en).timers = w.timers := by
  intro w en o hobs hi hprm
  unfold handleEntry
  simp only [hobs, hi, if_true, hprm, applyAnimation]
  by_cases ht : o.cfg.triggerOnce = true
  · simp only [ht, if_true, setObs]
    refine ⟨?_, ?_, ?_, rfl⟩ <;>
      simp [getElemSt, setElemSt, List.find?_cons, mem_addClass_self]
  · simp only [ht, if_false]
    refine ⟨?_, ?_, ?_, rfl⟩ <;>
      simp [getElemSt, setElemSt, List.find?_cons, mem_addClass_self]

/-- C3, witness: the amended theorem at a concrete activation under
reduced motion. -/
theorem c3_reduced_motion_amended_witness :
    "visible" ∈ (getElemSt (handleEntry regOneReduced ⟨0, 0, 1, true⟩) 0).classes ∧
    (getElemSt (handleEntry regOneReduced ⟨0, 0, 1, true⟩) 0).opacity = some "1" ∧
    (getElemSt (handleEntry regOneReduced ⟨0, 0, 1, true⟩) 0).transform = some "none" ∧
    (handleEntry regOneReduced ⟨0, 0, 1, true⟩).timers = regOneReduced.timers :=
  c3_reduced_motion_amended regOneReduced ⟨0, 0, 1, true⟩
    ⟨⟨mkRat 1 10, "0px", true, "fade-in", 0, 300⟩, [⟨0, -1, false⟩]⟩
    (by decide) rfl rfl

/-!  C4 — unsupported-platform fallback.  -/

theorem fallbackStep_pres (acc : World) (e' e : ℕ)
    (h : "visible" ∈ (getElemSt acc e).classes ∧ (getElemSt acc e).opacity = some "1") :
    "visible" ∈ (getElemSt (fallbackStep acc e') e).classes ∧
      (getElemSt (fallbackStep acc e') e).opacity = some "1" := by
  unfold fallbackStep
  by_cases he : e = e'
  · subst he
    rw [getElemSt_setElemSt_self]
    exact ⟨mem_addClass_self _ _, rfl⟩
  · rw [getElemSt_setElemSt_ne _ _ _ _ he]
    exact h

theorem fallbackStep_self (acc : World) (e : ℕ) :
    "visible" ∈ (getElemSt (fallbackStep acc e) e).classes ∧
      (getElemSt (fallbackStep acc e) e).opacity = some "1" := by
  unfold fallbackStep
  rw [getElemSt_setElemSt_self]
  exact ⟨mem_addClass_self _ _, rfl⟩

theorem fallbackMark_pres (es : List ℕ) (w : World) (e : ℕ)
    (h : "visible" ∈ (getElemSt w e).classes ∧ (getElemSt w e).opacity = some "1") :
    "visible" ∈ (getElemSt (fallbackMark w es) e).classes ∧
      (getElemSt (fallbackMark w es) e).opacity = some "1" := by
  induction es generalizing w with
  | nil => exact h
  | cons a rest ih => exact ih (fallbackStep w a) (fallbackStep_pres w a e h)

theorem fallbackMark_visible (es : List ℕ) (w : World) (e : ℕ) (he : e ∈ es) :
    "visible" ∈ (getElemSt (fallbackMark w es) e).classes ∧
      (getElemSt (fallbackMark w es) e).opacity = some "1" := by
  induction es generalizing w with
  | nil => exact absurd he (List.not_mem_nil e)
  | cons a rest ih =>
    rcases List.mem_cons.mp he with heq | hmem
    · subst heq
      exact fallbackMark_pres rest (fallbackStep w e) e (fallbackStep_self w e)
    · exact ih (fallbackStep w a) hmem

theorem mem_addClass_cases {cs : List String} {x : String} (c : String)
    (h : x ∈ addClass cs c) : x ∈ cs ∨ x = c := by
  unfold addClass at h
  split at h
  · exact Or.inl h
  · rcases List.mem_append.mp h with hm | hm
    · exact Or.inl hm
    · exact Or.inr (List.mem_singleton.mp hm)

/-- The part of `loadImage` (image-optimizer.js lines 252-265) that runs
synchronously inside the register call, up to the first `await`: the
loaded-class early return, otherwise adding the loading class and
removing the error class.  The source resolution, the temporary image
load and the final-state update (lines 267-326) run only when the
asynchronous load settles, after `initLazyLoading` has already
returned. -/
def loadImageSync (img : ImgState) (cfg : ImgConfigV) : ImgState :=
  if cfg.loadedClass ∈ img.classes then img
  else { img with
    classes := removeClass (addClass img.classes cfg.loadingClass) cfg.errorClass }

/-- A fresh lazy image: deferred source in `data-src`, nothing loaded. -/
def pendingImg : ImgState :=
  ⟨[], none, none, some "hero.png", none, false, none⟩

/-- C4, counterexample.  The claim covers every registration made when
visibility detection is unavailable, and its cited sources include
`initLazyLoading`'s fallback (image-optimizer.js lines 374-387).  That
branch is reached (first conjunct), but its per-image work is the
asynchronous `loadImage`: during the register call itself only the
synchronous prefix runs, leaving the image with the loading class, no
loaded class and its live `src` still unset — the final state (loaded
class and swapped-in source, last two conjuncts) arrives only when the
deferred load settles, after the call returned.  So "register
synchronously applies the Effect's final state to every supplied
element" is false for this cited registration path. -/
theorem c4_unsupported_fallback_counterexample :
    initLazyLoading false (ImgSelector.css [0]) {} =
      LazyOutcome.fallbackLoadedAll (lazyValidate {}) [0] ∧
    (loadImageSync pendingImg (lazyValidate {})).classes = ["img-loading"] ∧
    "img-loaded" ∉ (loadImageSync pendingImg (lazyValidate {})).classes ∧
    (loadImageSync pendingImg (lazyValidate {})).src = none ∧
    (loadImageSync pendingImg (lazyValidate {})).dataSrc = some "hero.png" ∧
    "img-loaded" ∈ (loadImage pendingImg (lazyValidate {}) true).1.classes ∧
    (loadImage pendingImg (lazyValidate {}) true).1.src = some "hero.png" := by
  decide

/-- C4 (amended): when viewport-visibility detection is unavailable,
neither registration entry point surfaces the condition as an error.
animations.js's register synchronously applies the Effect's final state
(the `visible` class and inline opacity 1) to every supplied element and
returns the no-op handle, whose dispose changes nothing.
image-optimizer.js's register degrades to its load-everything fallback
and returns a no-op cleanup, but it only initiates the loads: the
synchronous part of the call applies nothing beyond the loading state —
it never adds the loaded class — while each image's final state (the
loaded class and the swapped-in source) is applied by the asynchronous
completion of its load. -/
theorem c4_unsupported_fallback :
    (∀ (w : World) (sel : SelectorInput) (opts : AnimOptions) (es : List ℕ),
        w.supported = false → getElements sel = Except.ok es →
        initScrollAnimations w sel opts = Except.ok (fallbackMark w es, Handle.noop) ∧
        (∀ e ∈ es, "visible" ∈ (getElemSt (fallbackMark w es) e).classes ∧
          (getElemSt (fallbackMark w es) e).opacity = some "1") ∧
        dispose (fallbackMark w es) Handle.noop = fallbackMark w es) ∧
    (∀ (opts : ImgOptions) (es : List ℕ), es ≠ [] →
        initLazyLoading false (ImgSelector.css es) opts =
          LazyOutcome.fallbackLoadedAll (lazyValidate opts) es) ∧
    (∀ (img : ImgState) (cfg : ImgConfigV), cfg.loadedClass ≠ cfg.loadingClass →
        cfg.loadedClass ∈ (loadImageSync img cfg).classes →
        cfg.loadedClass ∈ img.classes) ∧
    (∀ (img : ImgState) (cfg : ImgConfigV) (s : String),
        cfg.loadedClass ∉ img.classes → img.inPicture = false →
        img.dataSrc = some s →
        (loadImage img cfg true).1.src = some s ∧
          cfg.loadedClass ∈ (loadImage img cfg true).1.classes) := by
  refine ⟨?_, ?_, ?_, ?_⟩
  · intro w sel opts es hsup hsel
    refine ⟨?_, ?_, rfl⟩
    · unfold initScrollAnimations
      rw [if_pos hsup, hsel]
    · intro e he
      exact fallbackMark_visible es w e he
  · intro opts es hes
    unfold initLazyLoading
    cases es with
    | nil => exact absurd rfl hes
    | cons a es => rfl
  · intro img cfg hne
    unfold loadImageSync
    by_cases h : cfg.loadedClass ∈ img.classes
    · rw [if_pos h]
      exact fun _ => h
    · rw [if_neg h]
      intro hm
      have hm1 : cfg.loadedClass ∈ addClass img.classes cfg.loadingClass :=
        List.mem_of_mem_filter hm
      rcases mem_addClass_cases cfg.loadingClass hm1 with hm2 | hm2
      · exact hm2
      · exact absurd hm2 hne
  · intro img cfg s h hpic hds
    unfold loadImage
    rw [if_neg h]
    cases hdss : img.dataSrcset with
    | none => simp [hpic, hds, hdss, Option.orElse, mem_addClass_self]
    | some ds => simp [hpic, hds, hdss, Option.orElse, mem_addClass_self]

/-- C4, witness: the amended theorem at concrete inputs — the
animations.js fallback on a concrete unsupported world, the
image-optimizer fallback branch reached, its synchronous phase adding no
loaded class, and the asynchronous completion producing the final
state. -/
theorem c4_unsupported_fallback_witness :
    (initScrollAnimations (initialWorld false false [0]) (SelectorInput.css [0]) {} =
        Except.ok (fallbackMark (initialWorld false false [0]) [0], Handle.noop) ∧
      (∀ e ∈ [0],
        "visible" ∈ (getElemSt (fallbackMark (initialWorld false false [0]) [0]) e).classes ∧
        (getElemSt (fallbackMark (initialWorld false false [0]) [0]) e).opacity = some "1") ∧
      dispose (fallbackMark (initialWorld false false [0]) [0]) Handle.noop =
        fallbackMark (initialWorld false false [0]) [0]) ∧
    initLazyLoading false (ImgSelector.css [0]) {} =
      LazyOutcome.fallbackLoadedAll (lazyValidate {}) [0] ∧
    ((lazyValidate {}).loadedClass ∈ (loadImageSync pendingImg (lazyValidate {})).classes →
      (lazyValidate {}).loadedClass ∈ pendingImg.classes) ∧
    (loadImage pendingImg (lazyValidate {}) true).1.src = some "hero.png" ∧
    (lazyValidate {}).loadedClass ∈ (loadImage pendingImg (lazyValidate {}) true).1.classes :=
  ⟨(c4_unsupported_fallback.1) (initialWorld false false [0]) (SelectorInput.css [0]) {}
      [0] rfl rfl,
   (c4_unsupported_fallback.2.1) {} [0] (by decide),
   (c4_unsupported_fallback.2.2.1) pendingImg (lazyValidate {}) (by decide),
   (c4_unsupported_fallback.2.2.2) pendingImg (lazyValidate {}) "hero.png"
      (by decide) rfl rfl⟩

/-!  C5 — configuration errors.  -/

/-- C5, counterexample.  `initLazyLoading` of image-optimizer.js is a
registration entry point cited by the claim; threshold 2 fails validation
(it is outside [0,1]), yet the call surfaces nothing to the caller: it
silently substitutes the default threshold 0.01 (after a log-only
warning) and proceeds to observe the elements, refuting "the error is
surfaced synchronously at registration time to the caller (thrown or
returned as an error result)" and "registration never proceeds ... with
invalid policy values". -/
theorem c5_config_errors_counterexample :
    ¬ ((0 : ℚ) ≤ 2 ∧ (2 : ℚ) ≤ 1) ∧
    initLazyLoading true (ImgSelector.css [0]) { threshold := some (JSVal.num 2) } =
      LazyOutcome.observing ⟨50, mkRat 1 100, "img-loading", "img-loaded", "img-error"⟩ [0] := by
  refine ⟨?_, by decide⟩
  intro h
  exact absurd h.2 (by decide)

/-- C5 (amended): in animations.js every invalid configuration option is
surfaced synchronously — `validateConfig` throws a `TypeError` for an
out-of-range threshold, a non-string rootMargin, a non-boolean
triggerOnce, a negative delay or duration, or an unknown animation type,
and `initScrollAnimations` rethrows that error to its caller, aborting
registration.  In image-optimizer.js, however, an invalid threshold is
not surfaced: `initLazyLoading` replaces it by the default 0.01 (logging
a warning) and proceeds with registration.  Configuration errors are also
not the only errors that abort an animations.js registration — invalid
selector input throws as well (see C6). -/
theorem c5_config_errors_amended :
    (∀ (opts : AnimOptions) (msg : String) (w : World) (sel : SelectorInput),
        validateConfig opts = Except.error msg → w.supported = true →
        initScrollAnimations w sel opts = Except.error msg) ∧
    (∀ q : ℚ, q < 0 ∨ 1 < q →
        validateConfig { threshold := some (JSVal.num q) } =
          Except.error "threshold must be a number between 0 and 1") ∧
    (∀ v : JSVal, (∀ s, v ≠ JSVal.str s) →
        validateConfig { rootMargin := some v } =
          Except.error "rootMargin must be a string") ∧
    (∀ v : JSVal, (∀ b, v ≠ JSVal.jbool b) →
        validateConfig { triggerOnce := some v } =
          Except.error "triggerOnce must be a boolean") ∧
    (∀ q : ℚ, q < 0 →
        validateConfig { delay := some (JSVal.num q) } =
          Except.error "delay must be a non-negative number") ∧
    (∀ q : ℚ, q < 0 →
        validateConfig { duration := some (JSVal.num q) } =
          Except.error "duration must be a non-negative number") ∧
    (∀ s : String, s ∉ animationTypeValues →
        validateConfig { animationType := some (JSVal.str s) } =
          Except.error "animationType must be one of the supported types") ∧
    (∀ q : ℚ, q < 0 ∨ 1 < q →
        (lazyValidate { threshold := some (JSVal.num q) }).threshold = mkRat 1 100 ∧
        ∀ es : List ℕ, es ≠ [] →
          initLazyLoading true (ImgSelector.css es) { threshold := some (JSVal.num q) } =
            LazyOutcome.observing (lazyValidate { threshold := some (JSVal.num q) }) es) := by
  refine ⟨?_, ?_, ?_, ?_, ?_, ?_, ?_, ?_⟩
  · intro opts msg w sel herr hsup
    unfold initScrollAnimations
    rw [if_neg (by rw [hsup]; exact fun hc => Bool.noConfusion hc), herr]
  · intro q h
    unfold validateConfig
    simp only [mergedVal, Option.getD]
    rw [if_pos h]
  · intro v h
    cases v with
    | str s => exact absurd rfl (h s)
    | num q =>
      unfold validateConfig
      simp only [mergedVal, Option.getD]
      rw [if_neg (by decide : ¬ ((mkRat 1 10) < 0 ∨ (mkRat 1 10) > 1))]
    | jbool b =>
      unfold validateConfig
      simp only [mergedVal, Option.getD]
      rw [if_neg (by decide : ¬ ((mkRat 1 10) < 0 ∨ (mkRat 1 10) > 1))]
    | undef =>
      unfold validateConfig
      simp only [mergedVal, Option.getD]
      rw [if_neg (by decide : ¬ ((mkRat 1 10) < 0 ∨ (mkRat 1 10) > 1))]
  · intro v h
    cases v with
    | jbool b => exact absurd rfl (h b)
    | num q =>
      unfold validateConfig
      simp only [mergedVal, Option.getD]
      rw [if_neg (by decide : ¬ ((mkRat 1 10) < 0 ∨ (mkRat 1 10) > 1))]
    | str s =>
      unfold validateConfig
      simp only [mergedVal, Option.getD]
      rw [if_neg (by decide : ¬ ((mkRat 1 10) < 0 ∨ (mkRat 1 10) > 1))]
    | undef =>
      unfold validateConfig
      simp only [mergedVal, Option.getD]
      rw [if_neg (by decide : ¬ ((mkRat 1 10) < 0 ∨ (mkRat 1 10) > 1))]
  · intro q h
    unfold validateConfig
    simp only [mergedVal, Option.getD]
    rw [if_neg (by decide : ¬ ((mkRat 1 10) < 0 ∨ (mkRat 1 10) > 1)), if_pos h]
  · intro q h
    unfold validateConfig
    simp only [mergedVal, Option.getD]
    rw [if_neg (by decide : ¬ ((mkRat 1 10) < 0 ∨ (mkRat 1 10) > 1)),
        if_neg (by decide : ¬ ((0 : ℚ) < 0)), if_pos h]
  · intro s h
    unfold validateConfig
    simp only [mergedVal, Option.getD]
    rw [if_neg (by decide : ¬ ((mkRat 1 10) < 0 ∨ (mkRat 1 10) > 1)),
        if_neg (by decide : ¬ ((0 : ℚ) < 0)), if_neg (by decide : ¬ ((300 : ℚ) < 0)),
        if_neg h]
  · intro q h
    constructor
    · unfold lazyValidate
      simp only [Option.getD]
      rw [if_pos h]
    · intro es hes
      unfold initLazyLoading
      cases es with
      | nil => exact absurd rfl hes
      | cons a es => rfl

/-- C5, witness: the amended theorem at concrete invalid options. -/
theorem c5_config_errors_amended_witness :
    initScrollAnimations (initialWorld false true [0]) (SelectorInput.css [0])
      { threshold := some (JSVal.num 2) } =
      Except.error "threshold must be a number between 0 and 1" ∧
    validateConfig { rootMargin := some (JSVal.num 5) } =
      Except.error "rootMargin must be a string" ∧
    validateConfig { animationType := some (JSVal.str "zoom") } =
      Except.error "animationType must be one of the supported types" ∧
    (lazyValidate { threshold := some (JSVal.num 2) }).threshold = mkRat 1 100 :=
  ⟨(c5_config_errors_amended.1) { threshold := some (JSVal.num 2) } _
      (initialWorld false true [0]) (SelectorInput.css [0])
      ((c5_config_errors_amended.2.1) 2 (Or.inr (by decide))) rfl,
   (c5_config_errors_amended.2.2.1) (JSVal.num 5) (fun s h => JSVal.noConfusion h),
   (c5_config_errors_amended.2.2.2.2.2.2.1) "zoom" (by decide),
   ((c5_config_errors_amended.2.2.2.2.2.2.2) 2 (Or.inr (by decide))).1⟩

/-!  C6 — degradation of non-configuration failures.  -/

/-- C6, counterexample.  On a supported platform, animations.js does not
degrade malformed registration input: an unrecognised selector value and
an element array containing a non-element both make `initScrollAnimations`
throw a `TypeError` past the component boundary (the `getElements` call
at line 287 and even in the fallback path at line 268 is not wrapped in
any try/catch), instead of treating the elements as already visible. -/
theorem c6_degradation_counterexample :
    (initialWorld false true [0]).supported = true ∧
    initScrollAnimations (initialWorld false true [0]) SelectorInput.other {} =
      Except.error "Selector must be a string, Element, NodeList, or Element array" ∧
    initScrollAnimations (initialWorld false true [0])
      (SelectorInput.arr [ArrItem.nonElement]) {} =
      Except.error "Array must contain only Element instances" := by
  decide

/-- C6 (amended): the unsupported-platform failure does degrade — with
visibility detection absent, any resolvable input is marked visible
synchronously and nothing is thrown — and image-optimizer.js degrades an
invalid selector to a no-op registration; but animations.js propagates
the `TypeError` of an invalid selector or malformed element array to its
caller on a supported platform (its own doc comment documents the
throw). -/
theorem c6_degradation_amended :
    (∀ (w : World) (sel : SelectorInput) (opts : AnimOptions) (es : List ℕ),
        w.supported = false → getElements sel = Except.ok es →
        initScrollAnimations w sel opts = Except.ok (fallbackMark w es, Handle.noop) ∧
        ∀ e ∈ es, "visible" ∈ (getElemSt (fallbackMark w es) e).classes) ∧
    (∀ (supported : Bool) (opts : ImgOptions),
        initLazyLoading supported ImgSelector.other opts = LazyOutcome.noopInvalidSelector) ∧
    (∀ (w : World) (sel : SelectorInput) (opts : AnimOptions) (cfg : AnimConfig)
        (msg : String),
        w.supported = true → validateConfig opts = Except.ok cfg →
        getElements sel = Except.error msg →
        initScrollAnimations w sel opts = Except.error msg) := by
  refine ⟨?_, ?_, ?_⟩
  · intro w sel opts es hsup hsel
    constructor
    · unfold initScrollAnimations
      rw [if_pos hsup, hsel]
    · intro e he
      exact (fallbackMark_visible es w e he).1
  · intro supported opts
    rfl
  · intro w sel opts cfg msg hsup hcfg hsel
    unfold initScrollAnimations
    rw [if_neg (by rw [hsup]; exact fun hc => Bool.noConfusion hc), hcfg, hsel]

/-- C6, witness: the amended theorem at concrete inputs. -/
theorem c6_degradation_amended_witness :
    (initScrollAnimations (initialWorld false false [1]) (SelectorInput.nodeList [1]) {} =
        Except.ok (fallbackMark (initialWorld false false [1]) [1], Handle.noop) ∧
      ∀ e ∈ [1],
        "visible" ∈ (getElemSt (fallbackMark (initialWorld false false [1]) [1]) e).classes) ∧
    initLazyLoading false ImgSelector.other {} = LazyOutcome.noopInvalidSelector ∧
    initScrollAnimations (initialWorld false true [0]) SelectorInput.other {} =
      Except.error "Selector must be a string, Element, NodeList, or Element array" :=
  ⟨(c6_degradation_amended.1) (initialWorld false false [1]) (SelectorInput.nodeList [1])
      {} [1] rfl rfl,
   (c6_degradation_amended.2.1) false {},
   (c6_degradation_amended.2.2) (initialWorld false true [0]) SelectorInput.other {}
      ⟨mkRat 1 10, "0px", true, "fade-in", 0, 300⟩ _ rfl (by decide) rfl⟩

/-!  C7 — dispose safety.  -/

/-- The full chain of classes one `cleanup` iteration removes from an
element. -/
def cleanupChain : List String :=
  ("visible" :: (animationTypeValues.filter (fun t => t ≠ "none")).map
    (fun t => "animate-" ++ t)) ++ ["animate-element"]

theorem cleanupElem_eq (st : ElemState) :
    cleanupElem st = { st with classes := cleanupChain.foldl removeClass st.classes,
                               animDurationVar := none } := by
  unfold cleanupElem removeAnimation cleanupChain
  simp [List.foldl_map]

theorem cleanupElem_idem (st : ElemState) :
    cleanupElem (cleanupElem st) = cleanupElem st := by
  rw [cleanupElem_eq st, cleanupElem_eq]
  simp [foldl_removeClass_idem]

theorem cleanupStep_of_none (acc : World) (a : ℕ)
    (h : registryGet acc.registry a = none) :
    cleanupStep acc a = setElemSt acc a (cleanupElem (getElemSt acc a)) := by
  unfold cleanupStep
  rw [h]

theorem cleanupStep_getElemSt (acc : World) (a x : ℕ) :
    getElemSt (cleanupStep acc a) x =
      if x = a then cleanupElem (getElemSt acc a) else getElemSt acc x := by
  unfold cleanupStep
  cases hr : registryGet acc.registry a with
  | none =>
    simp only [hr]
    by_cases hx : x = a
    · subst hx
      rw [if_pos rfl, getElemSt_setElemSt_self]
    · rw [if_neg hx, getElemSt_setElemSt_ne _ _ _ _ hx]
  | some oi =>
    cases hobs : acc.observers[oi]? with
    | some o =>
      simp only [hr, hobs]
      by_cases hx : x = a
      · subst hx
        rw [if_pos rfl, getElemSt_setElemSt_self]
        rfl
      · rw [if_neg hx, getElemSt_setElemSt_ne _ _ _ _ hx]
        rfl
    | none =>
      simp only [hr, hobs]
      by_cases hx : x = a
      · subst hx
        rw [if_pos rfl, getElemSt_setElemSt_self]
        rfl
      · rw [if_neg hx, getElemSt_setElemSt_ne _ _ _ _ hx]
        rfl

theorem cleanupStep_registryGet_self (acc : World) (a : ℕ) :
    registryGet (cleanupStep acc a).registry a = none := by
  unfold cleanupStep
  cases hr : registryGet acc.registry a with
  | none =>
    simp only [hr]
    exact hr
  | some oi =>
    cases hobs : acc.observers[oi]? with
    | some o =>
      simp only [hr, hobs]
      exact registryGet_delete_self _ _
    | none =>
      simp only [hr, hobs]
      exact registryGet_delete_self _ _

theorem cleanupStep_registryGet_none (acc : World) (a x : ℕ)
    (h : registryGet acc.registry x = none) :
    registryGet (cleanupStep acc a).registry x = none := by
  unfold cleanupStep
  cases hr : registryGet acc.registry a with
  | none =>
    simp only [hr]
    exact h
  | some oi =>
    cases hobs : acc.observers[oi]? with
    | some o =>
      simp only [hr, hobs]
      exact registryGet_delete_of_none _ _ _ h
    | none =>
      simp only [hr, hobs]
      exact registryGet_delete_of_none _ _ _ h

theorem cleanup_registryGet_none_pres (es : List ℕ) (w : World) (x : ℕ)
    (h : registryGet w.registry x = none) :
    registryGet (cleanup w es).registry x = none := by
  induction es generalizing w with
  | nil => exact h
  | cons a rest ih => exact ih (cleanupStep w a) (cleanupStep_registryGet_none w a x h)

theorem cleanup_registryGet_none (es : List ℕ) (w : World) :
    ∀ e ∈ es, registryGet (cleanup w es).registry e = none := by
  induction es generalizing w with
  | nil => exact fun e he => absurd he (List.not_mem_nil e)
  | cons a rest ih =>
    intro e he
    rcases List.mem_cons.mp he with heq | hmem
    · subst heq
      exact cleanup_registryGet_none_pres rest (cleanupStep w e) e
        (cleanupStep_registryGet_self w e)
    · exact ih (cleanupStep w a) e hmem

theorem cleanupStep_fixed_pres (acc : World) (a e : ℕ)
    (h : cleanupElem (getElemSt acc e) = getElemSt acc e) :
    cleanupElem (getElemSt (cleanupStep acc a) e) = getElemSt (cleanupStep acc a) e := by
  rw [cleanupStep_getElemSt]
  by_cases he : e = a
  · rw [if_pos he, cleanupElem_idem]
  · rw [if_neg he]
    exact h

theorem cleanup_fixed_pres (es : List ℕ) (w : World) (e : ℕ)
    (h : cleanupElem (getElemSt w e) = getElemSt w e) :
    cleanupElem (getElemSt (cleanup w es) e) = getElemSt (cleanup w es) e := by
  induction es generalizing w with
  | nil => exact h
  | cons a rest ih => exact ih (cleanupStep w a) (cleanupStep_fixed_pres w a e h)

theorem cleanup_fixed (es : List ℕ) (w : World) :
    ∀ e ∈ es, cleanupElem (getElemSt (cleanup w es) e) = getElemSt (cleanup w es) e := by
  induction es generalizing w with
  | nil => exact fun e he => absurd he (List.not_mem_nil e)
  | cons a rest ih =>
    intro e he
    rcases List.mem_cons.mp he with heq | hmem
    · subst heq
      apply cleanup_fixed_pres rest (cleanupStep w e) e
      rw [cleanupStep_getElemSt, if_pos rfl, cleanupElem_idem]
    · exact ih (cleanupStep w a) e hmem

theorem cleanup_second_pass (es : List ℕ) (w1 : World)
    (h : ∀ e ∈ es, registryGet w1.registry e = none ∧
      cleanupElem (getElemSt w1 e) = getElemSt w1 e) :
    (∀ x, getElemSt (cleanup w1 es) x = getElemSt w1 x) ∧
      (cleanup w1 es).registry = w1.registry ∧
      (cleanup w1 es).observers = w1.observers ∧
      (cleanup w1 es).queue = w1.queue ∧
      (cleanup w1 es).effectLog = w1.effectLog ∧
      (cleanup w1 es).timers = w1.timers := by
  induction es generalizing w1 with
  | nil => exact ⟨fun x => rfl, rfl, rfl, rfl, rfl, rfl⟩
  | cons a rest ih =>
    have ha := h a (List.mem_cons_self a rest)
    have hstep : cleanupStep w1 a = setElemSt w1 a (getElemSt w1 a) := by
      rw [cleanupStep_of_none w1 a ha.1, ha.2]
    have hw2elems : ∀ x, getElemSt (setElemSt w1 a (getElemSt w1 a)) x = getElemSt w1 x := by
      intro x
      by_cases hx : x = a
      · subst hx
        rw [getElemSt_setElemSt_self]
      · rw [getElemSt_setElemSt_ne _ _ _ _ hx]
    have hrest := ih (setElemSt w1 a (getElemSt w1 a)) (by
      intro e he
      refine ⟨h e (List.mem_cons_of_mem a he) |>.1, ?_⟩
      rw [hw2elems e]
      exact (h e (List.mem_cons_of_mem a he)).2)
    have hfold : cleanup w1 (a :: rest) = cleanup (setElemSt w1 a (getElemSt w1 a)) rest := by
      show cleanup (cleanupStep w1 a) rest = _
      rw [hstep]
    rw [hfold]
    exact ⟨fun x => (hrest.1 x).trans (hw2elems x), hrest.2.1, hrest.2.2.1,
      hrest.2.2.2.1, hrest.2.2.2.2.1, hrest.2.2.2.2.2⟩

/-- C7, counterexample.  Element 0 is registered with the default
(trigger-once) options; its activation entry is queued by the platform;
then the handle's `cleanup` (dispose) runs: at that moment no Effect has
fired and the element's registry binding is gone.  Delivering the
already-queued entry afterwards still invokes the Effect —
`handleIntersection` has no still-registered check — so "after dispose
returns, no further Effect invocation occurs on any of that handle's
elements" is false. -/
theorem c7_dispose_counterexample :
    (cleanup (updateGeometry regOneDefault 0 0 1 true) [0]).effectLog = [] ∧
    registryGet (cleanup (updateGeometry regOneDefault 0 0 1 true) [0]).registry 0 = none ∧
    (deliverAll (cleanup (updateGeometry regOneDefault 0 0 1 true) [0])).effectLog =
      [(0, "fade-in")] := by
  decide

/-- C7 (amended): `dispose` never throws (`cleanup` is total) and calling
it twice in a row is harmless — the second call leaves every observable
part of the state exactly as the first left it.  After dispose, an
element watched by nothing with nothing queued for it never receives
another Effect invocation under any event sequence; in the concrete
single-registration scenario the disposed element is indeed watched by
nothing.  What dispose does not prevent is an activation that the
platform queued before the dispose call: its delivery still invokes the
Effect, because the code guards Effect invocations with
`entry.isIntersecting` only, not with a still-registered check. -/
theorem c7_dispose_amended :
    (∀ (w : World) (es : List ℕ),
        (∀ x, getElemSt (cleanup (cleanup w es) es) x = getElemSt (cleanup w es) x) ∧
        (cleanup (cleanup w es) es).registry = (cleanup w es).registry ∧
        (cleanup (cleanup w es) es).observers = (cleanup w es).observers ∧
        (cleanup (cleanup w es) es).queue = (cleanup w es).queue ∧
        (cleanup (cleanup w es) es).effectLog = (cleanup w es).effectLog ∧
        (cleanup (cleanup w es) es).timers = (cleanup w es).timers) ∧
    (∀ (w : World) (e : ℕ) (evs : List PEvent), noWatch w e →
        countEffect (runEvents w evs) e = countEffect w e) ∧
    noWatch (cleanup regOneDefault [0]) 0 := by
  refine ⟨?_, ?_, ?_⟩
  · intro w es
    exact cleanup_second_pass es (cleanup w es)
      (fun e he => ⟨cleanup_registryGet_none es w e he, cleanup_fixed es w e he⟩)
  · intro w e evs h
    exact (runEvents_noWatch evs w e h).2
  · unfold noWatch
    exact ⟨by decide, by decide⟩

/-- C7, witness: the amended theorem at concrete inputs — double dispose
of the registered world changes nothing observable, and the disposed
world receives no Effect from further events. -/
theorem c7_dispose_amended_witness :
    (∀ x, getElemSt (cleanup (cleanup regOneDefault [0]) [0]) x =
        getElemSt (cleanup regOneDefault [0]) x) ∧
    countEffect (runEvents (cleanup regOneDefault [0])
        [PEvent.geom 0 0 1 true, PEvent.deliver]) 0 =
      countEffect (cleanup regOneDefault [0]) 0 :=
  ⟨((c7_dispose_amended.1) regOneDefault [0]).1,
   (c7_dispose_amended.2.1) (cleanup regOneDefault [0]) 0
      [PEvent.geom 0 0 1 true, PEvent.deliver] (c7_dispose_amended.2.2)⟩

/-!  C8 — at most one watcher per element.  -/

/-- C10 (confirmed): `loadImage` checks the configured loaded-state class
before anything else; on an image already carrying it, the call returns
with the image state unchanged — no class, src, srcset or data-attribute
modification — with zero network loads initiated and no error thrown. -/
theorem c10_loadImage_idempotent :
    ∀ (img : ImgState) (cfg : ImgConfigV) (netOk : Bool),
      cfg.loadedClass ∈ img.classes →
      loadImage img cfg netOk = (img, 0, false) := by
  intro img cfg netOk h
  unfold loadImage
  rw [if_pos h]

/-- An image that already went through a successful load. -/
def loadedImg : ImgState :=
  ⟨["img-loaded"], some "hero.png", none, none, none, false, none⟩

/-- C10, witness: a concrete already-loaded image is returned untouched,
whatever the network would have done. -/
theorem c10_loadImage_idempotent_witness :
    loadImage loadedImg (lazyValidate {}) true = (loadedImg, 0, false) ∧
    loadImage loadedImg (lazyValidate {}) false = (loadedImg, 0, false) :=
  ⟨c10_loadImage_idempotent loadedImg (lazyValidate {}) true (by decide),
   c10_loadImage_idempotent loadedImg (lazyValidate {}) false (by decide)⟩

end Dispatch
